import Mathlib

/-!
Verification development for the controller-core firmware subsystem:
the low-resolution monotonic clock (`src/board/lrtimer.rs`) and the
HC-SR04 ultrasonic ranging state machine (`src/board/sr04.rs`).

Machine integers are embedded as `Nat` with explicit `% 2^32` (resp.
`% 2^16`) where the Rust code uses wrapping `u32` (resp. `u16`)
arithmetic.  Hardware state (the free-running counter, the NVIC
pending/active flags of the bound interrupt, the timer's update
interrupt flag) is carried explicitly in a state record; each Rust
method becomes a Lean function from state to value-and-state.
-/

/-- Width of a `u32`, as a modulus. -/
def U32 : Nat := 2 ^ 32

/-- Width of a `u16`, as a modulus. -/
def U16 : Nat := 2 ^ 16

/-- Timer reload value (`RELOAD_VALUE: u16 = 0xffff` in `lrtimer.rs`):
the hardware counter counts `0 ..= 0xffff` and then wraps, raising the
update (overflow) interrupt. -/
def LrTimer.RELOAD_VALUE : Nat := 0xffff

/-- Number of milliseconds per counter update
(`MILLISECONDS_PER_UPDATE: u32 = 0x10000 / 2` in `lrtimer.rs`). -/
def LrTimer.MILLISECONDS_PER_UPDATE : Nat := 0x10000 / 2

/-- Number of timer ticks per millisecond
(`COUNTS_PER_MILLISECOND: u16 = 2` in `lrtimer.rs`). -/
def LrTimer.COUNTS_PER_MILLISECOND : Nat := 2

/-- State of an `LrTimer` instance together with the hardware it is
bound to.  `cnt` is the free-running 16-bit counter (`self.tim.cnt()`),
`updates` the software overflow counter (`self.updates: u32`),
`pending`/`active` the NVIC pending/active flags of the bound
interrupt line (`NVIC::is_pending` / `NVIC::is_active`), and `uif` the
timer's update-interrupt hardware flag (cleared by
`clear_update_interrupt_flag`). -/
structure LrTimer where
  cnt : Nat
  updates : Nat
  pending : Bool
  active : Bool
  uif : Bool
  deriving DecidableEq

/-- `LrTimer::isr_needs_servicing`: the overflow interrupt is pending
or currently executing. -/
def LrTimer.isr_needs_servicing (s : LrTimer) : Bool :=
  s.pending || s.active

/-- `LrTimer::calculate_ms`: combined milliseconds from an update count
and a raw counter value, with wrapping `u32` arithmetic. -/
def LrTimer.calculate_ms (updates cnt : Nat) : Nat :=
  (updates * LrTimer.MILLISECONDS_PER_UPDATE % U32
    + cnt / LrTimer.COUNTS_PER_MILLISECOND) % U32

/-- `LrTimer::isr`: if the interrupt needs servicing, clear the
hardware update flag, increment the overflow counter with wraparound,
and un-pend the NVIC line; otherwise do nothing. -/
def LrTimer.isr (s : LrTimer) : LrTimer :=
  if s.isr_needs_servicing then
    { s with uif := false, updates := (s.updates + 1) % U32, pending := false }
  else
    s

/-- `LrTimer::ms`: best-effort milliseconds read.  Samples counter and
update count; if the interrupt needs servicing, services it and
resamples before combining. -/
def LrTimer.ms (s : LrTimer) : Nat × LrTimer :=
  let cnt := s.cnt
  let updates := s.updates
  if s.isr_needs_servicing then
    let s2 := s.isr
    (LrTimer.calculate_ms s2.updates s2.cnt, s2)
  else
    (LrTimer.calculate_ms updates cnt, s)

/-- `LrTimer::ms_no_update`: strict milliseconds read.  Samples
counter, update count and the needs-servicing flag atomically (the
Rust code does so inside `cortex_m::interrupt::free`); refuses with
`Err(())` if an unserviced overflow was detected.  It takes `&self`:
it never mutates the clock state nor invokes `isr`, which the
embedding reflects by returning a value only. -/
def LrTimer.ms_no_update (s : LrTimer) : Except Unit Nat :=
  if s.isr_needs_servicing then
    Except.error ()
  else
    Except.ok (LrTimer.calculate_ms s.updates s.cnt)

/-- `LrTimer::now`: retrying read. The Rust code loops
`ms_no_update`, running `isr` after each failure.  The loop is
embedded with explicit fuel (number of remaining loop iterations);
`none` means the fuel was exhausted before the strict read succeeded. -/
def LrTimer.nowFuel : Nat → LrTimer → Option (Nat × LrTimer)
  | 0, _ => none
  | n + 1, s =>
    match s.ms_no_update with
    | Except.ok v => some (v, s)
    | Except.error _ => LrTimer.nowFuel n s.isr

/-- Modelled from the spec: one tick of the free-running hardware
counter ("a free-running hardware counter ... an overflow interrupt",
spec sections 4.1 and 6).  The counter counts up to `RELOAD_VALUE` and
wraps to zero; the wrap sets the timer's update flag and makes the
bound interrupt line pending. -/
def LrTimer.tick (s : LrTimer) : LrTimer :=
  if s.cnt = LrTimer.RELOAD_VALUE then
    { s with cnt := 0, uif := true, pending := true }
  else
    { s with cnt := s.cnt + 1 }

/-- Coupling invariant between the ground-truth number `T` of hardware
ticks elapsed since creation and an `LrTimer` state, under the spec's
operating conditions (reads and servicing not concurrent with the
handler, at most one outstanding overflow): the handler is not
executing, the counter holds `T` modulo the counter width, and the
update counter has absorbed every completed overflow except (exactly
when `pending` is latched) the last one. -/
def LrTimer.Inv (T : Nat) (s : LrTimer) : Prop :=
  s.active = false ∧
  s.cnt = T % 0x10000 ∧
  (s.pending = true → 1 ≤ T / 0x10000 ∧ s.updates = (T / 0x10000 - 1) % U32) ∧
  (s.pending = false → s.updates = T / 0x10000 % U32)

instance (T : Nat) (s : LrTimer) : Decidable (LrTimer.Inv T s) := by
  unfold LrTimer.Inv; infer_instance

/-- One step of the clock's environment/usage model: a hardware tick
(under the documented single-outstanding-overflow operating condition),
a servicing call, a best-effort read, or a retrying read.  `T` is the
ground-truth tick count. -/
inductive LrTimer.TStep : Nat × LrTimer → Nat × LrTimer → Prop
  | tick (T : Nat) (s : LrTimer) (h : ¬(s.pending = true ∧ s.cnt = LrTimer.RELOAD_VALUE)) :
      LrTimer.TStep (T, s) (T + 1, s.tick)
  | isr (T : Nat) (s : LrTimer) : LrTimer.TStep (T, s) (T, s.isr)
  | msRead (T : Nat) (s : LrTimer) : LrTimer.TStep (T, s) (T, (s.ms).2)
  | nowRead (T : Nat) (s : LrTimer) (v : Nat) (s' : LrTimer)
      (h : LrTimer.nowFuel 2 s = some (v, s')) : LrTimer.TStep (T, s) (T, s')

/-! Arithmetic facts about the clock, under the coupling invariant. -/

lemma LrTimer.calculate_ms_eq (u c : Nat) :
    LrTimer.calculate_ms u c = (u * 32768 + c / 2) % 4294967296 := by
  simp only [LrTimer.calculate_ms, LrTimer.MILLISECONDS_PER_UPDATE,
    LrTimer.COUNTS_PER_MILLISECOND, U32]
  norm_num [Nat.mod_add_mod]

lemma LrTimer.U32_eq : U32 = 4294967296 := by norm_num [U32]

lemma LrTimer.needs_servicing_eq_pending (s : LrTimer) (h : s.active = false) :
    s.isr_needs_servicing = s.pending := by
  simp [LrTimer.isr_needs_servicing, h]

lemma LrTimer.isr_of_pending (s : LrTimer) (hpend : s.pending = true) :
    s.isr = { s with uif := false, updates := (s.updates + 1) % U32,
                     pending := false } := by
  simp [LrTimer.isr, LrTimer.isr_needs_servicing, hpend]

lemma LrTimer.isr_of_clear (s : LrTimer) (hpend : s.pending = false)
    (ha : s.active = false) : s.isr = s := by
  simp [LrTimer.isr, LrTimer.isr_needs_servicing, hpend, ha]

lemma LrTimer.inv_isr (T : Nat) (s : LrTimer) (h : LrTimer.Inv T s) :
    LrTimer.Inv T s.isr := by
  obtain ⟨ha, hc, hp, hnp⟩ := h
  cases hpend : s.pending with
  | false => rw [LrTimer.isr_of_clear s hpend ha]; exact ⟨ha, hc, hp, hnp⟩
  | true =>
    obtain ⟨h1, hupd⟩ := hp hpend
    rw [LrTimer.isr_of_pending s hpend]
    refine ⟨ha, hc, by simp, fun _ => ?_⟩
    show (s.updates + 1) % U32 = T / 0x10000 % U32
    rw [hupd, LrTimer.U32_eq]
    omega

lemma LrTimer.ms_val_of_inv (T : Nat) (s : LrTimer) (h : LrTimer.Inv T s) :
    (s.ms).1 = T / 2 % U32 := by
  obtain ⟨ha, hc, hp, hnp⟩ := h
  cases hpend : s.pending with
  | false =>
    have hupd := hnp hpend
    have hs : s.ms = (LrTimer.calculate_ms s.updates s.cnt, s) := by
      simp [LrTimer.ms, LrTimer.isr_needs_servicing, hpend, ha]
    rw [hs]
    show LrTimer.calculate_ms s.updates s.cnt = T / 2 % U32
    rw [LrTimer.calculate_ms_eq, hupd, hc, LrTimer.U32_eq]
    omega
  | true =>
    obtain ⟨h1, hupd⟩ := hp hpend
    have hs : s.ms = (LrTimer.calculate_ms ((s.updates + 1) % U32) s.cnt, s.isr) := by
      simp [LrTimer.ms, LrTimer.isr, LrTimer.isr_needs_servicing, hpend]
    rw [hs]
    show LrTimer.calculate_ms ((s.updates + 1) % U32) s.cnt = T / 2 % U32
    rw [LrTimer.calculate_ms_eq, hupd, hc, LrTimer.U32_eq]
    omega

lemma LrTimer.inv_ms (T : Nat) (s : LrTimer) (h : LrTimer.Inv T s) :
    LrTimer.Inv T (s.ms).2 := by
  by_cases hns : s.isr_needs_servicing = true
  · simpa [LrTimer.ms, hns] using LrTimer.inv_isr T s h
  · simp only [Bool.not_eq_true] at hns
    simpa [LrTimer.ms, hns] using h

lemma LrTimer.inv_tick (T : Nat) (s : LrTimer) (h : LrTimer.Inv T s)
    (hno : ¬(s.pending = true ∧ s.cnt = LrTimer.RELOAD_VALUE)) :
    LrTimer.Inv (T + 1) s.tick := by
  obtain ⟨ha, hc, hp, hnp⟩ := h
  rw [LrTimer.RELOAD_VALUE] at hno
  by_cases hwrap : s.cnt = 0xffff
  · have hT : T % 0x10000 = 0xffff := by rw [← hc, hwrap]
    have hpend : s.pending = false := by
      cases hpd : s.pending with
      | false => rfl
      | true => exact absurd ⟨hpd, hwrap⟩ hno
    have hupd := hnp hpend
    have hs : s.tick = { s with cnt := 0, uif := true, pending := true } := by
      simp [LrTimer.tick, LrTimer.RELOAD_VALUE, hwrap]
    rw [hs]
    refine ⟨ha, ?_, fun _ => ⟨?_, ?_⟩, by simp⟩
    · show (0 : Nat) = (T + 1) % 0x10000
      omega
    · show 1 ≤ (T + 1) / 0x10000
      omega
    · show s.updates = ((T + 1) / 0x10000 - 1) % U32
      rw [hupd]
      congr 1
      omega
  · have hs : s.tick = { s with cnt := s.cnt + 1 } := by
      simp [LrTimer.tick, LrTimer.RELOAD_VALUE, hwrap]
    rw [hs]
    have hcnt : s.cnt + 1 = (T + 1) % 0x10000 := by omega
    have hdiv : (T + 1) / 0x10000 = T / 0x10000 := by omega
    exact ⟨ha, hcnt, fun hpd => by rw [hdiv]; exact hp hpd,
      fun hpd => by rw [hdiv]; exact hnp hpd⟩

lemma LrTimer.ms_no_update_of_inv_clear (T : Nat) (s : LrTimer)
    (h : LrTimer.Inv T s) (hpend : s.pending = false) :
    s.ms_no_update = Except.ok (T / 2 % U32) := by
  obtain ⟨ha, hc, _, hnp⟩ := h
  have hupd := hnp hpend
  have hs : s.ms_no_update = Except.ok (LrTimer.calculate_ms s.updates s.cnt) := by
    simp [LrTimer.ms_no_update, LrTimer.isr_needs_servicing, hpend, ha]
  rw [hs]
  congr 1
  rw [LrTimer.calculate_ms_eq, hupd, hc, LrTimer.U32_eq]
  omega

lemma LrTimer.nowFuel_of_inv (T : Nat) (s : LrTimer) (h : LrTimer.Inv T s) :
    LrTimer.nowFuel 2 s
      = some (T / 2 % U32, if s.pending = true then s.isr else s) := by
  have ha := h.1
  cases hpend : s.pending with
  | false =>
    simp [LrTimer.nowFuel, LrTimer.ms_no_update_of_inv_clear T s h hpend]
  | true =>
    have herr : s.ms_no_update = Except.error () := by
      simp [LrTimer.ms_no_update, LrTimer.isr_needs_servicing, hpend]
    have hisr := LrTimer.inv_isr T s h
    have hisr_pend : (s.isr).pending = false := by
      rw [LrTimer.isr_of_pending s hpend]
    simp [LrTimer.nowFuel, herr,
      LrTimer.ms_no_update_of_inv_clear T s.isr hisr hisr_pend]

lemma LrTimer.tstep_inv {p q : Nat × LrTimer} (hs : LrTimer.TStep p q)
    (h : LrTimer.Inv p.1 p.2) : LrTimer.Inv q.1 q.2 ∧ p.1 ≤ q.1 := by
  cases hs with
  | tick T s hno => exact ⟨LrTimer.inv_tick T s h hno, Nat.le_succ T⟩
  | isr T s => exact ⟨LrTimer.inv_isr T s h, le_refl T⟩
  | msRead T s => exact ⟨LrTimer.inv_ms T s h, le_refl T⟩
  | nowRead T s v s' hnow =>
    rw [LrTimer.nowFuel_of_inv T s h] at hnow
    have hpair := Option.some.inj hnow
    rw [Prod.mk.injEq] at hpair
    obtain ⟨hv, hs'⟩ := hpair
    subst hs'
    refine ⟨?_, le_refl T⟩
    cases hpend : s.pending with
    | false => simpa [hpend] using h
    | true => simpa [hpend] using LrTimer.inv_isr T s h

lemma LrTimer.steps_inv {p q : Nat × LrTimer}
    (hst : Relation.ReflTransGen LrTimer.TStep p q) (h : LrTimer.Inv p.1 p.2) :
    LrTimer.Inv q.1 q.2 ∧ p.1 ≤ q.1 := by
  induction hst with
  | refl => exact ⟨h, le_refl _⟩
  | tail _ hbc ih =>
    obtain ⟨hb, hle⟩ := ih
    obtain ⟨hc, hle'⟩ := LrTimer.tstep_inv hbc hb
    exact ⟨hc, le_trans hle hle'⟩

/-! Claim theorems for the monotonic clock. -/

/-- C1: the strict clock read `ms_no_update` never returns a combined
time value while the overflow interrupt is pending or active: whenever
`isr_needs_servicing` holds at sample time it returns the distinguished
update-pending failure `Err(())`.  It never invokes the servicing
routine or mutates the clock state: the embedding of `ms_no_update`
consumes the state immutably (`&self`) and returns only a value. -/
theorem C1_strict_read_refuses (s : LrTimer)
    (h : s.isr_needs_servicing = true) :
    s.ms_no_update = Except.error () := by
  simp [LrTimer.ms_no_update, h]

theorem C1_strict_read_refuses_witness :
    (LrTimer.mk 5 7 true false true).isr_needs_servicing = true ∧
    (LrTimer.mk 5 7 true false true).ms_no_update = Except.error () :=
  ⟨by decide, C1_strict_read_refuses (LrTimer.mk 5 7 true false true) (by decide)⟩

/-- C6: the retrying read `now` terminates after at most one extra
iteration beyond the first `ms_no_update` failure.  Stated over the
loop with fuel 2 (one initial attempt plus one retry): whenever the
read is performed outside the bound interrupt handler (`active`
clear, the operating condition of spec section 5), the loop returns
within fuel 2; moreover if the first strict read fails, the single
intervening `isr` call clears the one outstanding overflow, the strict
read of the retry succeeds, and `now` returns its value. -/
theorem C6_now_terminates (s : LrTimer) (hact : s.active = false) :
    (∀ e : Unit, s.ms_no_update = Except.error e →
      ∃ v, (s.isr).ms_no_update = Except.ok v ∧
        LrTimer.nowFuel 2 s = some (v, s.isr)) ∧
    ∃ v s', LrTimer.nowFuel 2 s = some (v, s') := by
  cases hpend : s.pending with
  | false =>
    have hok : s.ms_no_update
        = Except.ok (LrTimer.calculate_ms s.updates s.cnt) := by
      simp [LrTimer.ms_no_update, LrTimer.isr_needs_servicing, hpend, hact]
    constructor
    · intro e he
      rw [hok] at he
      exact absurd he (by simp)
    · exact ⟨LrTimer.calculate_ms s.updates s.cnt, s, by
        simp [LrTimer.nowFuel, hok]⟩
  | true =>
    have herr : s.ms_no_update = Except.error () := by
      simp [LrTimer.ms_no_update, LrTimer.isr_needs_servicing, hpend]
    have hok : (s.isr).ms_no_update
        = Except.ok (LrTimer.calculate_ms ((s.updates + 1) % U32) s.cnt) := by
      rw [LrTimer.isr_of_pending s hpend]
      simp [LrTimer.ms_no_update, LrTimer.isr_needs_servicing, hact]
    have hrun : LrTimer.nowFuel 2 s
        = some (LrTimer.calculate_ms ((s.updates + 1) % U32) s.cnt, s.isr) := by
      simp [LrTimer.nowFuel, herr, hok]
    exact ⟨fun e he => ⟨LrTimer.calculate_ms ((s.updates + 1) % U32) s.cnt,
      hok, hrun⟩,
      ⟨LrTimer.calculate_ms ((s.updates + 1) % U32) s.cnt, s.isr, hrun⟩⟩

theorem C6_now_terminates_witness :
    (LrTimer.mk 100 3 true false true).active = false ∧
    ((∀ e : Unit, (LrTimer.mk 100 3 true false true).ms_no_update = Except.error e →
      ∃ v, ((LrTimer.mk 100 3 true false true).isr).ms_no_update = Except.ok v ∧
        LrTimer.nowFuel 2 (LrTimer.mk 100 3 true false true)
          = some (v, (LrTimer.mk 100 3 true false true).isr)) ∧
    ∃ v s', LrTimer.nowFuel 2 (LrTimer.mk 100 3 true false true) = some (v, s')) :=
  ⟨rfl, C6_now_terminates (LrTimer.mk 100 3 true false true) rfl⟩

/-- C7: for any interleaving of hardware ticks (under the documented
single-outstanding-overflow operating condition), servicing calls,
best-effort reads and retrying reads on one `LrTimer` instance, the
values returned by the best-effort read `ms` and the retrying read
`now` are non-decreasing as long as the combined time stays below the
32-bit wraparound horizon; both reads report the canonical combined
time, so in particular two reads with no intervening overflow return
non-decreasing values. -/
theorem C7_reads_monotone (T0 T1 T2 : Nat) (s0 s1 s2 : LrTimer)
    (h0 : LrTimer.Inv T0 s0)
    (h01 : Relation.ReflTransGen LrTimer.TStep (T0, s0) (T1, s1))
    (h12 : Relation.ReflTransGen LrTimer.TStep (T1, s1) (T2, s2))
    (hor : T2 / 2 < U32) :
    (s1.ms).1 ≤ (s2.ms).1 ∧
    (∃ s1', LrTimer.nowFuel 2 s1 = some ((s1.ms).1, s1')) ∧
    (∃ s2', LrTimer.nowFuel 2 s2 = some ((s2.ms).1, s2')) := by
  obtain ⟨h1, hle1⟩ := LrTimer.steps_inv h01 h0
  obtain ⟨h2, hle2⟩ := LrTimer.steps_inv h12 h1
  have hv1 := LrTimer.ms_val_of_inv T1 s1 h1
  have hv2 := LrTimer.ms_val_of_inv T2 s2 h2
  refine ⟨?_, ?_, ?_⟩
  · rw [hv1, hv2]
    have hb2 : T2 / 2 % U32 = T2 / 2 := Nat.mod_eq_of_lt hor
    have hb1 : T1 / 2 % U32 = T1 / 2 :=
      Nat.mod_eq_of_lt (lt_of_le_of_lt (Nat.div_le_div_right hle2) hor)
    rw [hb1, hb2]
    exact Nat.div_le_div_right hle2
  · rw [hv1]
    exact ⟨_, LrTimer.nowFuel_of_inv T1 s1 h1⟩
  · rw [hv2]
    exact ⟨_, LrTimer.nowFuel_of_inv T2 s2 h2⟩

theorem C7_reads_monotone_witness :
    LrTimer.Inv 0 (LrTimer.mk 0 0 false false false) ∧
    (0 : Nat) / 2 < U32 ∧
    (((LrTimer.mk 0 0 false false false).ms).1
        ≤ ((LrTimer.mk 0 0 false false false).ms).1 ∧
      (∃ s1', LrTimer.nowFuel 2 (LrTimer.mk 0 0 false false false)
        = some (((LrTimer.mk 0 0 false false false).ms).1, s1')) ∧
      (∃ s2', LrTimer.nowFuel 2 (LrTimer.mk 0 0 false false false)
        = some (((LrTimer.mk 0 0 false false false).ms).1, s2'))) :=
  ⟨by decide, by decide,
    C7_reads_monotone 0 0 0 (LrTimer.mk 0 0 false false false)
      (LrTimer.mk 0 0 false false false) (LrTimer.mk 0 0 false false false)
      (by decide) Relation.ReflTransGen.refl Relation.ReflTransGen.refl
      (by decide)⟩

/-- C8 counterexample: `isr` is not idempotent as claimed when the
bound interrupt's `active` flag is set (which is precisely the state
while the interrupt handler — the intended caller of `isr` — is
executing): an overflow is outstanding (`isr_needs_servicing` holds),
the first call increments the update counter and un-pends the line,
yet an immediately repeated call increments the counter again, because
`isr_needs_servicing` still holds through the `active` flag. -/
theorem C8_counterexample :
    (LrTimer.mk 0 0 true true true).isr_needs_servicing = true ∧
    ((LrTimer.mk 0 0 true true true).isr).isr.updates
      ≠ ((LrTimer.mk 0 0 true true true).isr).updates := by
  constructor
  · decide
  · show ((2 : Nat) % U32 % U32) ≠ (1 : Nat) % U32
    rw [LrTimer.U32_eq]
    decide

/-- C8 (amended): when neither the pending nor the active flag is set,
`isr` is a no-op leaving the update counter (and all state) unchanged;
when an overflow is outstanding it increments the update counter
exactly once with wraparound, clears the hardware update flag, and
un-latches the pending state, and — provided the interrupt's `active`
flag is clear — an immediately repeated call is then a no-op and does
not increment the counter again. -/
theorem C8_isr_idempotent (s : LrTimer) :
    (s.isr_needs_servicing = false → s.isr = s) ∧
    (s.isr_needs_servicing = true →
      (s.isr).updates = (s.updates + 1) % U32 ∧
      (s.isr).pending = false ∧ (s.isr).uif = false ∧
      (s.active = false → (s.isr).isr = s.isr)) := by
  constructor
  · intro h
    simp [LrTimer.isr, h]
  · intro h
    have hs : s.isr = { s with uif := false, updates := (s.updates + 1) % U32, pending := false } := by
      simp [LrTimer.isr, h]
    rw [hs]
    exact ⟨rfl, rfl, rfl, fun hact => LrTimer.isr_of_clear _ rfl hact⟩

theorem C8_isr_idempotent_witness :
    (LrTimer.mk 10 41 true false true).isr_needs_servicing = true ∧
    (LrTimer.mk 10 41 true false true).active = false ∧
    ((LrTimer.mk 10 41 true false true).isr).updates = (41 + 1) % U32 ∧
    ((LrTimer.mk 10 41 true false true).isr).pending = false ∧
    ((LrTimer.mk 10 41 true false true).isr).uif = false ∧
    ((LrTimer.mk 10 41 true false true).isr).isr
      = (LrTimer.mk 10 41 true false true).isr :=
  ⟨rfl, rfl,
    ((C8_isr_idempotent (LrTimer.mk 10 41 true false true)).2 rfl).1,
    ((C8_isr_idempotent (LrTimer.mk 10 41 true false true)).2 rfl).2.1,
    ((C8_isr_idempotent (LrTimer.mk 10 41 true false true)).2 rfl).2.2.1,
    ((C8_isr_idempotent (LrTimer.mk 10 41 true false true)).2 rfl).2.2.2 rfl⟩

/-!
Embedding of the HC-SR04 driver (`src/board/sr04.rs`).

The driver is generic over a high-resolution clock `HRCLOCK` and a
low-resolution clock `LRCLOCK` (both with `u32` tick counters in this
system).  Instants are embedded as `Nat` tick counts; each clock is
characterised by its rate in microseconds per tick (`lrRate`,
`hrRate`), e.g. 1000 for the `LrTimer` (1 ms per tick).  Durations are
produced by wrapping 32-bit subtraction of instants and converted to
`Microseconds<u32>` by a checked multiplication, per the data model of
the spec (section 3).  The `U16F16` fixed-point distance type of the
`fixed` crate is embedded by its raw value, a `u32` counting units of
2^-16 meters.
-/

/-- `TIMEOUT: Microseconds = Microseconds(60_000)` from `sr04.rs`. -/
def Sr04.TIMEOUT : Nat := 60000

/-- `TRIGGER_WIDTH: Microseconds = Microseconds(10)` from `sr04.rs`. -/
def Sr04.TRIGGER_WIDTH : Nat := 10

/-- `MINIMUM_ECHO_WIDTH: Microseconds = Microseconds(200)` from `sr04.rs`. -/
def Sr04.MINIMUM_ECHO_WIDTH : Nat := 200

/-- Round the fraction `num / den` to the nearest integer, ties to
even: the rounding used by the `fixed` crate when parsing a decimal
literal into a fixed-point type. -/
def Sr04.roundTiesEven (num den : Nat) : Nat :=
  let q := num / den
  let r := num % den
  if 2 * r < den then q
  else if den < 2 * r then q + 1
  else if q % 2 = 0 then q
  else q + 1

/-- `SCALING_FACTOR: Distance = distance!(0.00017303)` from `sr04.rs`,
as the raw value of the `U16F16` fixed-point constant.  The decimal
literal 0.00017303 = 17303/10^8 is stored in units of 2^-16, rounded
to the nearest representable value (ties to even) by the `fixed`
crate's literal parsing: round(17303 * 65536 / 10^8) =
round(11.33969408) = 11. -/
def Sr04.SCALING_FACTOR : Nat := Sr04.roundTiesEven (17303 * 65536) (10 ^ 8)

/-- `Distance::from_num` on a `u16` integer: the raw `U16F16` value of
an integer is the integer shifted left by the 16 fractional bits. -/
def Sr04.fromNum (n : Nat) : Nat := n * 65536

/-- Multiplication of two `U16F16` values by their raw
representations: the full product carries 32 fractional bits, so it is
shifted right by 16 (truncating), wrapping at the 32-bit width. -/
def Sr04.fixMul (a b : Nat) : Nat := a * b / 65536 % U32

/-- Modelled from the spec: subtraction of two instants of the same
clock, "arithmetic is modular (wraps at a fixed width); subtraction of
two instants yields a Duration" (spec section 3) — the wrapping 32-bit
tick difference, as in the external `embedded_time` crate backing
`Instant` for clocks with `T = u32`. -/
def Sr04.instSub (a b : Nat) : Nat := (a + (U32 - b % U32)) % U32

/-- Modelled from the spec: conversion of a tick-count duration of a
clock with `rate` microseconds per tick into `Microseconds<u32>`,
"fallible when the result cannot be represented without overflow in
the target duration's width" (spec section 3) — a checked
multiplication by the ratio of the two scaling fractions, as in the
external `embedded_time` crate's `TryFrom<Generic<u32>>`. -/
def Sr04.toMicros (rate ticks : Nat) : Option Nat :=
  if ticks * rate < U32 then some (ticks * rate) else none

/-- `MeasurementState` from `sr04.rs`: sub-steps of one in-flight
measurement; `rise` is a high-resolution instant. -/
inductive Sr04.MeasurementState where
  | afterTriggerRising
  | afterTriggerFalling
  | afterEchoRising (rise : Nat)
  deriving DecidableEq

/-- `State` from `sr04.rs`: the sensor is idle or exactly one
measurement is in flight; `start` is a low-resolution instant. -/
inductive Sr04.State where
  | idle
  | measuring (start : Nat) (state : Sr04.MeasurementState)
  deriving DecidableEq

/-- `Error` from `sr04.rs`. -/
inductive Sr04.Error where
  | inProgress
  | timeout
  | tooShort
  | unexpected
  deriving DecidableEq

deriving instance DecidableEq for Except

/-- `Measurement` from `sr04.rs`; `result` carries the raw `U16F16`
distance on success.  The field `end` of the Rust struct is rendered
`end_` (`end` is reserved). -/
structure Sr04.Measurement where
  start : Nat
  end_ : Nat
  result : Except Sr04.Error Nat
  deriving DecidableEq

/-- `Event` from `sr04.rs`: inputs to the state machine; the echo
timestamp is a high-resolution instant. -/
inductive Sr04.Event where
  | triggerComplete
  | echoInterrupt (t : Nat)
  deriving DecidableEq

/-- `Sr04` driver structure from `sr04.rs`: trigger pin level, state,
and the last recorded measurement. -/
structure Sr04 where
  trig : Bool
  state : Sr04.State
  last : Option Sr04.Measurement
  deriving DecidableEq

/-- `Sr04::new`: starts `Idle` with no recorded measurement; the
trigger pin is taken as supplied (its initial level is whatever the
caller's pin had). -/
def Sr04.new (trig : Bool) : Sr04 :=
  { trig := trig, state := Sr04.State.idle, last := none }

/-- `Sr04::poll`: time-based transitions, `lrRate` being the
low-resolution clock's microseconds per tick.  If a measurement is in
flight, computes the elapsed duration `at - start` converted to
microseconds (substituting `TIMEOUT` if the conversion fails), and on
`elapsed >= TIMEOUT` transitions to `Idle` recording a `Timeout`
measurement with `end = at`; returns whether a measurement was
completed. -/
def Sr04.poll (lrRate : Nat) (s : Sr04) (at_ : Nat) : Bool × Sr04 :=
  match s.state with
  | Sr04.State.measuring start _ =>
    let elapsed := (Sr04.toMicros lrRate (Sr04.instSub at_ start)).getD Sr04.TIMEOUT
    if Sr04.TIMEOUT ≤ elapsed then
      (true, ⟨s.trig, Sr04.State.idle,
        some ⟨start, at_, Except.error Sr04.Error.timeout⟩⟩)
    else
      (false, s)
  | _ => (false, s)

/-- `Sr04::trigger`: polls for timeout first; if then idle, raises the
trigger pin, records `start = at` and moves to `AfterTriggerRising`;
otherwise fails with `InProgress`. -/
def Sr04.trigger (lrRate : Nat) (s : Sr04) (at_ : Nat) :
    Except Sr04.Error Unit × Sr04 :=
  let s1 := (Sr04.poll lrRate s at_).2
  match s1.state with
  | Sr04.State.idle =>
    (Except.ok (),
      ⟨true, Sr04.State.measuring at_ Sr04.MeasurementState.afterTriggerRising,
        s1.last⟩)
  | _ => (Except.error Sr04.Error.inProgress, s1)

/-- Echo pulse width in microseconds as computed in the final echo
branch of `Sr04::process`: the high-resolution difference `fall -
rise` converted to microseconds (substituting `TIMEOUT` on conversion
failure), clamped to `TIMEOUT`. -/
def Sr04.echoWidth (hrRate rise fall : Nat) : Nat :=
  min ((Sr04.toMicros hrRate (Sr04.instSub fall rise)).getD Sr04.TIMEOUT)
    Sr04.TIMEOUT

/-- `Sr04::process`: polls for timeout first and reports completion
immediately if it fired, without consuming the event; otherwise
dispatches on the sub-state.  A mismatched event is `Unexpected` with
no mutation; the closing echo edge computes the clamped width, casts
it to `u16` (the `% U16`), classifies `TooShort` below
`MINIMUM_ECHO_WIDTH` or converts to a fixed-point distance via
`SCALING_FACTOR`, records the measurement and returns completion. -/
def Sr04.process (lrRate hrRate : Nat) (s : Sr04) (event : Sr04.Event)
    (at_ : Nat) : Except Sr04.Error Bool × Sr04 :=
  let p := Sr04.poll lrRate s at_
  if p.1 then (Except.ok true, p.2)
  else
    let s1 := p.2
    match s1.state with
    | Sr04.State.idle => (Except.error Sr04.Error.unexpected, s1)
    | Sr04.State.measuring start mstate =>
      match mstate, event with
      | Sr04.MeasurementState.afterTriggerRising, Sr04.Event.triggerComplete =>
        (Except.ok false,
          ⟨false, Sr04.State.measuring start
            Sr04.MeasurementState.afterTriggerFalling, s1.last⟩)
      | Sr04.MeasurementState.afterTriggerRising, _ =>
        (Except.error Sr04.Error.unexpected, s1)
      | Sr04.MeasurementState.afterTriggerFalling, Sr04.Event.echoInterrupt rise =>
        (Except.ok false,
          ⟨s1.trig, Sr04.State.measuring start
            (Sr04.MeasurementState.afterEchoRising rise), s1.last⟩)
      | Sr04.MeasurementState.afterTriggerFalling, _ =>
        (Except.error Sr04.Error.unexpected, s1)
      | Sr04.MeasurementState.afterEchoRising rise, Sr04.Event.echoInterrupt fall =>
        let echo_duration := Sr04.echoWidth hrRate rise fall
        let result : Except Sr04.Error Nat :=
          if echo_duration < Sr04.MINIMUM_ECHO_WIDTH then
            Except.error Sr04.Error.tooShort
          else
            Except.ok (Sr04.fixMul (Sr04.fromNum (echo_duration % U16))
              Sr04.SCALING_FACTOR)
        (Except.ok true, ⟨s1.trig, Sr04.State.idle, some ⟨start, at_, result⟩⟩)
      | Sr04.MeasurementState.afterEchoRising _, _ =>
        (Except.error Sr04.Error.unexpected, s1)

/-- The event each sub-state expects (`TriggerComplete` in
`AfterTriggerRising`, `EchoInterrupt` in `AfterTriggerFalling` and
`AfterEchoRising`; nothing while `Idle`). -/
def Sr04.expects : Sr04.State → Sr04.Event → Bool
  | Sr04.State.measuring _ Sr04.MeasurementState.afterTriggerRising,
    Sr04.Event.triggerComplete => true
  | Sr04.State.measuring _ Sr04.MeasurementState.afterTriggerFalling,
    Sr04.Event.echoInterrupt _ => true
  | Sr04.State.measuring _ (Sr04.MeasurementState.afterEchoRising _),
    Sr04.Event.echoInterrupt _ => true
  | _, _ => false

/-! Helper lemmas about the ranging state machine. -/

lemma Sr04.instSub_self (a : Nat) : Sr04.instSub a a = 0 := by
  simp only [Sr04.instSub, LrTimer.U32_eq]
  omega

lemma Sr04.toMicros_zero (r : Nat) : Sr04.toMicros r 0 = some 0 := by
  norm_num [Sr04.toMicros, LrTimer.U32_eq]

lemma Sr04.SCALING_FACTOR_eq : Sr04.SCALING_FACTOR = 11 := by decide

lemma Sr04.fixMul_fromNum (w b : Nat) :
    Sr04.fixMul (Sr04.fromNum w) b = w * b % U32 := by
  have h : w * 65536 * b = 65536 * (w * b) := by ring
  simp only [Sr04.fixMul, Sr04.fromNum, h,
    Nat.mul_div_cancel_left _ (show 0 < 65536 by norm_num)]

lemma Sr04.poll_fired (lrRate : Nat) (s : Sr04) (at_ start : Nat)
    (m : Sr04.MeasurementState) (hst : s.state = Sr04.State.measuring start m)
    (hto : Sr04.TIMEOUT
      ≤ (Sr04.toMicros lrRate (Sr04.instSub at_ start)).getD Sr04.TIMEOUT) :
    Sr04.poll lrRate s at_ = (true, ⟨s.trig, Sr04.State.idle,
      some ⟨start, at_, Except.error Sr04.Error.timeout⟩⟩) := by
  simp [Sr04.poll, hst, hto]

lemma Sr04.poll_quiet (lrRate : Nat) (s : Sr04) (at_ start : Nat)
    (m : Sr04.MeasurementState) (hst : s.state = Sr04.State.measuring start m)
    (hto : ¬ Sr04.TIMEOUT
      ≤ (Sr04.toMicros lrRate (Sr04.instSub at_ start)).getD Sr04.TIMEOUT) :
    Sr04.poll lrRate s at_ = (false, s) := by
  simp [Sr04.poll, hst, hto]

lemma Sr04.poll_idle (lrRate : Nat) (s : Sr04) (at_ : Nat)
    (hst : s.state = Sr04.State.idle) :
    Sr04.poll lrRate s at_ = (false, s) := by
  simp [Sr04.poll, hst]

lemma Sr04.poll_of_not_fired (lrRate : Nat) (s : Sr04) (at_ : Nat)
    (h : (Sr04.poll lrRate s at_).1 = false) :
    Sr04.poll lrRate s at_ = (false, s) := by
  rcases hst : s.state with _ | ⟨start, m⟩
  · exact Sr04.poll_idle lrRate s at_ hst
  · by_cases hto : Sr04.TIMEOUT
        ≤ (Sr04.toMicros lrRate (Sr04.instSub at_ start)).getD Sr04.TIMEOUT
    · rw [Sr04.poll_fired lrRate s at_ start m hst hto] at h
      simp at h
    · exact Sr04.poll_quiet lrRate s at_ start m hst hto

lemma Sr04.poll_of_post_measuring (lrRate : Nat) (s : Sr04) (at_ : Nat)
    (h : (Sr04.poll lrRate s at_).2.state ≠ Sr04.State.idle) :
    Sr04.poll lrRate s at_ = (false, s) := by
  rcases hst : s.state with _ | ⟨start, m⟩
  · exact Sr04.poll_idle lrRate s at_ hst
  · by_cases hto : Sr04.TIMEOUT
        ≤ (Sr04.toMicros lrRate (Sr04.instSub at_ start)).getD Sr04.TIMEOUT
    · rw [Sr04.poll_fired lrRate s at_ start m hst hto] at h
      simp at h
    · exact Sr04.poll_quiet lrRate s at_ start m hst hto

lemma Sr04.poll_same (lrRate : Nat) (s : Sr04) (start : Nat)
    (m : Sr04.MeasurementState) (hst : s.state = Sr04.State.measuring start m) :
    Sr04.poll lrRate s start = (false, s) := by
  apply Sr04.poll_quiet lrRate s start start m hst
  rw [Sr04.instSub_self, Sr04.toMicros_zero]
  norm_num [Sr04.TIMEOUT]

/-! Claim theorems for the ranging state machine. -/

/-- C2 counterexample: the end-to-end run `trigger(0)`;
`process(TriggerComplete, 0)`; `process(EchoInterrupt(0), 0)`;
`process(EchoInterrupt(1160), 0)` on a fresh driver (low-resolution
clock at 1000 microseconds per tick, high-resolution clock at 1
microsecond per tick, so `t2 - t1 = 1160` microsecond-equivalents, no
timeout elapsed) completes with result `Ok` of raw distance 12760,
i.e. 12760/65536 ≈ 0.19470 m: the second conjunct shows the produced
distance is below 0.2 m, while the claim requires `1160 × 0.00017303 ≈
0.2007` m.  The gap arises because the `U16F16` constant
`SCALING_FACTOR` stores 0.00017303 rounded to 11/65536 ≈ 0.00016785. -/
theorem C2_counterexample :
    (Sr04.process 1000 1 (Sr04.process 1000 1 (Sr04.process 1000 1
        ((Sr04.trigger 1000 (Sr04.new false) 0).2)
        Sr04.Event.triggerComplete 0).2 (Sr04.Event.echoInterrupt 0) 0).2
        (Sr04.Event.echoInterrupt 1160) 0)
      = (Except.ok true,
          ⟨false, Sr04.State.idle, some ⟨0, 0, Except.ok 12760⟩⟩) ∧
    12760 * 5 < 65536 :=
  ⟨by decide, by decide⟩

/-- C2 (amended): for every run starting from a fresh `Sr04` in Idle,
the sequence `trigger(t0)`, `process(TriggerComplete, t0)`,
`process(EchoInterrupt(t1), t0)`, `process(EchoInterrupt(t2), t0)`
with `t2 - t1 = 1160` microsecond-equivalents and no timeout elapsed
completes a measurement whose result is `Ok(distance)` with `distance`
computed as the clamped echo width multiplied by the fixed-point
`SCALING_FACTOR`: `1160 × 11/65536 = 12760/65536 ≈ 0.1947` m, the
stored `U16F16` value of 0.00017303 being 11·2^-16. -/
theorem C2_end_to_end (lrRate : Nat) (trig0 : Bool) (t0 t1 t2 : Nat)
    (hdiff : Sr04.instSub t2 t1 = 1160) :
    Sr04.process lrRate 1 (Sr04.process lrRate 1 (Sr04.process lrRate 1
        ((Sr04.trigger lrRate (Sr04.new trig0) t0).2)
        Sr04.Event.triggerComplete t0).2 (Sr04.Event.echoInterrupt t1) t0).2
        (Sr04.Event.echoInterrupt t2) t0
      = (Except.ok true, ⟨false, Sr04.State.idle, some ⟨t0, t0,
          Except.ok (Sr04.fixMul (Sr04.fromNum 1160) Sr04.SCALING_FACTOR)⟩⟩) ∧
    Sr04.fixMul (Sr04.fromNum 1160) Sr04.SCALING_FACTOR = 12760 := by
  have h1 : Sr04.trigger lrRate (Sr04.mk trig0 Sr04.State.idle none) t0
      = (Except.ok (), Sr04.mk true
          (Sr04.State.measuring t0 Sr04.MeasurementState.afterTriggerRising)
          none) := by
    have hp := Sr04.poll_idle lrRate (Sr04.mk trig0 Sr04.State.idle none) t0 rfl
    simp [Sr04.trigger, hp]
  have h2 : Sr04.process lrRate 1 (Sr04.mk true
        (Sr04.State.measuring t0 Sr04.MeasurementState.afterTriggerRising) none)
        Sr04.Event.triggerComplete t0
      = (Except.ok false, Sr04.mk false
          (Sr04.State.measuring t0 Sr04.MeasurementState.afterTriggerFalling)
          none) := by
    have hp := Sr04.poll_same lrRate (Sr04.mk true
      (Sr04.State.measuring t0 Sr04.MeasurementState.afterTriggerRising) none)
      t0 Sr04.MeasurementState.afterTriggerRising rfl
    simp [Sr04.process, hp]
  have h3 : Sr04.process lrRate 1 (Sr04.mk false
        (Sr04.State.measuring t0 Sr04.MeasurementState.afterTriggerFalling) none)
        (Sr04.Event.echoInterrupt t1) t0
      = (Except.ok false, Sr04.mk false
          (Sr04.State.measuring t0 (Sr04.MeasurementState.afterEchoRising t1))
          none) := by
    have hp := Sr04.poll_same lrRate (Sr04.mk false
      (Sr04.State.measuring t0 Sr04.MeasurementState.afterTriggerFalling) none)
      t0 Sr04.MeasurementState.afterTriggerFalling rfl
    simp [Sr04.process, hp]
  have hw : Sr04.echoWidth 1 t1 t2 = 1160 := by
    rw [Sr04.echoWidth, hdiff]
    norm_num [Sr04.toMicros, LrTimer.U32_eq, Sr04.TIMEOUT]
  have hcast : (1160 : Nat) % U16 = 1160 := by norm_num [U16]
  have h4 : Sr04.process lrRate 1 (Sr04.mk false
        (Sr04.State.measuring t0 (Sr04.MeasurementState.afterEchoRising t1))
        none) (Sr04.Event.echoInterrupt t2) t0
      = (Except.ok true, Sr04.mk false Sr04.State.idle (some ⟨t0, t0,
          Except.ok (Sr04.fixMul (Sr04.fromNum 1160) Sr04.SCALING_FACTOR)⟩)) := by
    have hp := Sr04.poll_same lrRate (Sr04.mk false
      (Sr04.State.measuring t0 (Sr04.MeasurementState.afterEchoRising t1)) none)
      t0 (Sr04.MeasurementState.afterEchoRising t1) rfl
    simp [Sr04.process, hp, hw, hcast, Sr04.MINIMUM_ECHO_WIDTH]
  refine ⟨?_, by decide⟩
  simp only [Sr04.new, h1, h2, h3, h4]

theorem C2_end_to_end_witness :
    Sr04.instSub 1160 0 = 1160 ∧
    (Sr04.process 1000 1 (Sr04.process 1000 1 (Sr04.process 1000 1
        ((Sr04.trigger 1000 (Sr04.new false) 7).2)
        Sr04.Event.triggerComplete 7).2 (Sr04.Event.echoInterrupt 0) 7).2
        (Sr04.Event.echoInterrupt 1160) 7
      = (Except.ok true, ⟨false, Sr04.State.idle, some ⟨7, 7,
          Except.ok (Sr04.fixMul (Sr04.fromNum 1160) Sr04.SCALING_FACTOR)⟩⟩) ∧
    Sr04.fixMul (Sr04.fromNum 1160) Sr04.SCALING_FACTOR = 12760) :=
  ⟨by decide, C2_end_to_end 1000 false 7 0 1160 (by decide)⟩

/-- C3: for every call of `trigger(now)` or `process(event, now)`
while the state is `Measuring{start, ..}` with `now - start` at least
60000 microsecond-equivalents (after conversion, with `TIMEOUT`
substituted on conversion failure), the machine first transitions to
Idle and stores `Measurement{start, end = now, result =
Err(Timeout)}`; `process` does so regardless of and without consuming
the event and returns `Ok(true)`, and `trigger` stores the same
timeout measurement before proceeding. -/
theorem C3_timeout_priority (lrRate hrRate : Nat) (s : Sr04) (start : Nat)
    (m : Sr04.MeasurementState) (ev : Sr04.Event) (now : Nat)
    (hst : s.state = Sr04.State.measuring start m)
    (hto : Sr04.TIMEOUT
      ≤ (Sr04.toMicros lrRate (Sr04.instSub now start)).getD Sr04.TIMEOUT) :
    Sr04.process lrRate hrRate s ev now = (Except.ok true,
      ⟨s.trig, Sr04.State.idle,
        some ⟨start, now, Except.error Sr04.Error.timeout⟩⟩) ∧
    (Sr04.trigger lrRate s now).2.last
      = some ⟨start, now, Except.error Sr04.Error.timeout⟩ := by
  have hp := Sr04.poll_fired lrRate s now start m hst hto
  constructor
  · simp [Sr04.process, hp]
  · simp [Sr04.trigger, hp]

theorem C3_timeout_priority_witness :
    (Sr04.mk true (Sr04.State.measuring 0
        Sr04.MeasurementState.afterTriggerRising) none).state
      = Sr04.State.measuring 0 Sr04.MeasurementState.afterTriggerRising ∧
    Sr04.TIMEOUT ≤ (Sr04.toMicros 1000 (Sr04.instSub 100 0)).getD Sr04.TIMEOUT ∧
    (Sr04.process 1000 1
        (Sr04.mk true (Sr04.State.measuring 0
          Sr04.MeasurementState.afterTriggerRising) none)
        Sr04.Event.triggerComplete 100 = (Except.ok true,
        ⟨true, Sr04.State.idle,
          some ⟨0, 100, Except.error Sr04.Error.timeout⟩⟩) ∧
      (Sr04.trigger 1000
        (Sr04.mk true (Sr04.State.measuring 0
          Sr04.MeasurementState.afterTriggerRising) none) 100).2.last
        = some ⟨0, 100, Except.error Sr04.Error.timeout⟩) :=
  ⟨rfl, by decide,
    C3_timeout_priority 1000 1
      (Sr04.mk true (Sr04.State.measuring 0
        Sr04.MeasurementState.afterTriggerRising) none)
      0 Sr04.MeasurementState.afterTriggerRising
      Sr04.Event.triggerComplete 100 rfl (by decide)⟩

/-- C4: `trigger(at)` first runs the timeout check; if the state is
then Idle it sets the trigger pin high, transitions to
`Measuring{start = at, AfterTriggerRising}` (keeping the
possibly-just-recorded measurement) and returns `Ok(())`; if the state
is still Measuring it returns `Err(InProgress)` and changes nothing —
the poll left the machine untouched and the state, the stored
measurement and the trigger pin are returned unchanged. -/
theorem C4_trigger (lrRate : Nat) (s : Sr04) (at_ : Nat) :
    ((Sr04.poll lrRate s at_).2.state = Sr04.State.idle →
      Sr04.trigger lrRate s at_ = (Except.ok (),
        ⟨true, Sr04.State.measuring at_ Sr04.MeasurementState.afterTriggerRising,
          (Sr04.poll lrRate s at_).2.last⟩)) ∧
    ((Sr04.poll lrRate s at_).2.state ≠ Sr04.State.idle →
      Sr04.trigger lrRate s at_ = (Except.error Sr04.Error.inProgress, s) ∧
      (Sr04.poll lrRate s at_).2 = s) := by
  constructor
  · intro hidle
    simp [Sr04.trigger, hidle]
  · intro hne
    have hp := Sr04.poll_of_post_measuring lrRate s at_ hne
    rw [hp] at hne
    rcases hst : s.state with _ | ⟨st, m⟩
    · exact absurd hst hne
    · exact ⟨by simp [Sr04.trigger, hp, hst], by rw [hp]⟩

theorem C4_trigger_witness :
    ((Sr04.poll 1000 (Sr04.new false) 5).2.state = Sr04.State.idle) ∧
    Sr04.trigger 1000 (Sr04.new false) 5 = (Except.ok (),
      ⟨true, Sr04.State.measuring 5 Sr04.MeasurementState.afterTriggerRising,
        (Sr04.poll 1000 (Sr04.new false) 5).2.last⟩) :=
  ⟨by decide, (C4_trigger 1000 (Sr04.new false) 5).1 (by decide)⟩

/-- C5: if `process(event, at)` is called, the timeout has not fired,
and the event does not match what the current sub-state expects
(`TriggerComplete` in `AfterTriggerRising`, `EchoInterrupt` in
`AfterTriggerFalling` or `AfterEchoRising`, nothing while Idle), then
`process` returns `Err(Unexpected)` and leaves the whole driver state
— state, stored measurement and trigger pin — unchanged. -/
theorem C5_unexpected (lrRate hrRate : Nat) (s : Sr04) (ev : Sr04.Event)
    (at_ : Nat) (hpoll : (Sr04.poll lrRate s at_).1 = false)
    (hev : Sr04.expects s.state ev = false) :
    Sr04.process lrRate hrRate s ev at_
      = (Except.error Sr04.Error.unexpected, s) := by
  have hp := Sr04.poll_of_not_fired lrRate s at_ hpoll
  rcases hst : s.state with _ | ⟨start, m⟩
  · simp [Sr04.process, hp, hst]
  · rw [hst] at hev
    rcases m with _ | _ | rise <;> rcases ev with _ | t <;>
      simp [Sr04.expects] at hev <;>
      simp [Sr04.process, hp, hst]

theorem C5_unexpected_witness :
    (Sr04.poll 1000 (Sr04.new true) 0).1 = false ∧
    Sr04.expects (Sr04.new true).state (Sr04.Event.echoInterrupt 5) = false ∧
    Sr04.process 1000 1 (Sr04.new true) (Sr04.Event.echoInterrupt 5) 0
      = (Except.error Sr04.Error.unexpected, Sr04.new true) :=
  ⟨by decide, by decide,
    C5_unexpected 1000 1 (Sr04.new true) (Sr04.Event.echoInterrupt 5) 0
      (by decide) (by decide)⟩

/-- C9: in `poll`, if the elapsed duration `at - start` cannot be
represented as `Microseconds<u32>` (the checked conversion fails), no
panic occurs: the elapsed value is substituted by `TIMEOUT` itself via
`unwrap_or`, so the timeout comparison necessarily fires and the
measurement completes with `Err(Timeout)` while the state returns to
Idle. -/
theorem C9_conversion_overflow_times_out (lrRate : Nat) (s : Sr04)
    (start : Nat) (m : Sr04.MeasurementState) (at_ : Nat)
    (hst : s.state = Sr04.State.measuring start m)
    (hof : Sr04.toMicros lrRate (Sr04.instSub at_ start) = none) :
    Sr04.poll lrRate s at_ = (true, ⟨s.trig, Sr04.State.idle,
      some ⟨start, at_, Except.error Sr04.Error.timeout⟩⟩) := by
  apply Sr04.poll_fired lrRate s at_ start m hst
  rw [hof]
  simp

theorem C9_conversion_overflow_times_out_witness :
    (Sr04.mk false (Sr04.State.measuring 0
        Sr04.MeasurementState.afterTriggerRising) none).state
      = Sr04.State.measuring 0 Sr04.MeasurementState.afterTriggerRising ∧
    Sr04.toMicros 1000 (Sr04.instSub 5000000 0) = none ∧
    Sr04.poll 1000 (Sr04.mk false (Sr04.State.measuring 0
        Sr04.MeasurementState.afterTriggerRising) none) 5000000
      = (true, ⟨false, Sr04.State.idle,
          some ⟨0, 5000000, Except.error Sr04.Error.timeout⟩⟩) :=
  ⟨rfl, by decide,
    C9_conversion_overflow_times_out 1000
      (Sr04.mk false (Sr04.State.measuring 0
        Sr04.MeasurementState.afterTriggerRising) none)
      0 Sr04.MeasurementState.afterTriggerRising 5000000 rfl (by decide)⟩

/-- C10: in the final echo branch of `process` (state
`AfterEchoRising`, closing `EchoInterrupt`, timeout not fired), the
computed echo width is clamped to at most `TIMEOUT` = 60000
microseconds before conversion, so the narrowing cast of the width to
`u16` never truncates (`width % 2^16 = width`), the stored measurement
is exactly the classified one, and every `Ok(distance)` result is
bounded above by `60000 × SCALING_FACTOR` (raw value 660000, about
10.07 m). -/
theorem C10_width_clamped (lrRate hrRate : Nat) (s : Sr04)
    (start rise fall at_ : Nat)
    (hst : s.state = Sr04.State.measuring start
      (Sr04.MeasurementState.afterEchoRising rise))
    (hpoll : (Sr04.poll lrRate s at_).1 = false) :
    Sr04.echoWidth hrRate rise fall ≤ Sr04.TIMEOUT ∧
    Sr04.echoWidth hrRate rise fall % U16 = Sr04.echoWidth hrRate rise fall ∧
    (Sr04.process lrRate hrRate s (Sr04.Event.echoInterrupt fall) at_).2.last
      = some ⟨start, at_,
          if Sr04.echoWidth hrRate rise fall < Sr04.MINIMUM_ECHO_WIDTH then
            Except.error Sr04.Error.tooShort
          else Except.ok (Sr04.fixMul
            (Sr04.fromNum (Sr04.echoWidth hrRate rise fall))
            Sr04.SCALING_FACTOR)⟩ ∧
    Sr04.fixMul (Sr04.fromNum (Sr04.echoWidth hrRate rise fall))
        Sr04.SCALING_FACTOR
      ≤ Sr04.fixMul (Sr04.fromNum Sr04.TIMEOUT) Sr04.SCALING_FACTOR := by
  have hle : Sr04.echoWidth hrRate rise fall ≤ Sr04.TIMEOUT :=
    min_le_right _ _
  have hw : Sr04.echoWidth hrRate rise fall ≤ 60000 := hle
  have hmod : Sr04.echoWidth hrRate rise fall % U16
      = Sr04.echoWidth hrRate rise fall := by
    apply Nat.mod_eq_of_lt
    calc Sr04.echoWidth hrRate rise fall ≤ 60000 := hw
    _ < U16 := by norm_num [U16]
  have hp := Sr04.poll_of_not_fired lrRate s at_ hpoll
  refine ⟨hle, hmod, ?_, ?_⟩
  · simp [Sr04.process, hp, hst, hmod]
  · clear hmod hle
    rw [Sr04.fixMul_fromNum, Sr04.fixMul_fromNum, Sr04.SCALING_FACTOR_eq,
      LrTimer.U32_eq]
    have ht : Sr04.TIMEOUT = 60000 := rfl
    rw [ht, Nat.mod_eq_of_lt (by omega), Nat.mod_eq_of_lt (by norm_num)]
    omega

theorem C10_width_clamped_witness :
    (Sr04.mk false (Sr04.State.measuring 0
        (Sr04.MeasurementState.afterEchoRising 0)) none).state
      = Sr04.State.measuring 0 (Sr04.MeasurementState.afterEchoRising 0) ∧
    (Sr04.poll 1000 (Sr04.mk false (Sr04.State.measuring 0
        (Sr04.MeasurementState.afterEchoRising 0)) none) 0).1 = false ∧
    (Sr04.echoWidth 1 0 1160 ≤ Sr04.TIMEOUT ∧
      Sr04.echoWidth 1 0 1160 % U16 = Sr04.echoWidth 1 0 1160 ∧
      (Sr04.process 1000 1 (Sr04.mk false (Sr04.State.measuring 0
          (Sr04.MeasurementState.afterEchoRising 0)) none)
          (Sr04.Event.echoInterrupt 1160) 0).2.last
        = some ⟨0, 0,
            if Sr04.echoWidth 1 0 1160 < Sr04.MINIMUM_ECHO_WIDTH then
              Except.error Sr04.Error.tooShort
            else Except.ok (Sr04.fixMul
              (Sr04.fromNum (Sr04.echoWidth 1 0 1160)) Sr04.SCALING_FACTOR)⟩ ∧
      Sr04.fixMul (Sr04.fromNum (Sr04.echoWidth 1 0 1160)) Sr04.SCALING_FACTOR
        ≤ Sr04.fixMul (Sr04.fromNum Sr04.TIMEOUT) Sr04.SCALING_FACTOR) :=
  ⟨rfl, by decide,
    C10_width_clamped 1000 1
      (Sr04.mk false (Sr04.State.measuring 0
        (Sr04.MeasurementState.afterEchoRising 0)) none)
      0 0 1160 0 rfl (by decide)⟩
